import Mathlib

/-
Verification of the gnark repository snapshot: a shallow embedding of
  (1) the LZSS compressor front-end (`Compress`, `writeByte`, `findBackRef`,
      `canEncodeSymbol`, `fillBackrefs`/`bestBackref` from
      std/compress/lzss/compress.go), and
  (2) the PLONK prover orchestration (`Prove`, `commitToLRO`,
      `commitToQuotient`, `evaluateLROSmallDomain`,
      `computeLinearizedPolynomial` from the plonk prover file),
together with theorems settling the specification claims.

External collaborators (field arithmetic beyond ring operations, KZG
commit/open, FFT basis changes, the fiat-shamir hash, the suffix-array
index, the constraint solver) are modelled as oracle functions carried in
an environment record, following the spec's §6 contract boundary.
Go byte values are modelled as `Nat`; Go `int` values as `Int` where
negative sentinels (-1) occur, as `Nat` otherwise.
-/

namespace Lzss

/-- Kind of a back-reference: dictionary, short-window or long-window. -/
inductive BrKind : Type
  | dict
  | short
  | long
deriving DecidableEq, Repr

/-- Model of the Go `backref` struct: the fields of the `backrefType` that
`Compress`/`findBackRef` read, plus address and length (`-1` = not found). -/
structure Backref : Type where
  kind : BrKind
  address : Int
  length : Int
deriving DecidableEq, Repr

/-- The fields of a `backrefType` that `findBackRef` reads.  The constructor
`newBackRefType` lives outside the provided sources, so the three concrete
back-reference types are supplied by the environment. -/
structure BackrefTypeM : Type where
  nbBytesBackRef : Int
  maxAddress : Int
  maxLength : Int
  dictOnly : Bool
deriving DecidableEq, Repr

/-- One emitted item of the compressed stream: either a literal byte
(`writeByte`) or a back-reference token (`backref.writeTo`, whose bit-level
encoding is external; the token records the chosen backref and the position
`i` passed to `writeTo`). -/
inductive OutTok : Type
  | byte (b : Nat)
  | backref (br : Backref) (i : Nat)
deriving DecidableEq, Repr

/-- Error outcomes of the modelled compressor.  `inputTooLarge` is the size
check at the top of `Compress`; `noBackrefAt i` is the
"could not find a backref at index i" error; `panicCannotEncode` models the
`panic("cannot encode symbol")` inside `writeByte`; `outOfFuel` is a
modelling artifact of the fuel-indexed loop, impossible for oracles that
make progress. -/
inductive LzErr : Type
  | inputTooLarge
  | noBackrefAt (i : Nat)
  | panicCannotEncode
  | outOfFuel
deriving DecidableEq, Repr

/-- Environment of the compressor: the three reserved symbols and the input
size bound (constants defined outside the provided sources), the three
back-reference types produced by `initBackRefTypes`, and the two
suffix-array `LookupLongest` oracles (dictionary index and input index)
with the signature `(sub, minLen, maxLen, lo, hi) -> (addr, len)`. -/
structure LzEnv : Type where
  maxInputSize : Nat
  symbolDict : Nat
  symbolShort : Nat
  symbolLong : Nat
  dictType : BackrefTypeM
  shortType : BackrefTypeM
  longType : BackrefTypeM
  dictLen : Nat
  lookupDict : List Nat → Int → Int → Int → Int → Int × Int
  lookupInput : List Nat → Int → Int → Int → Int → Int × Int
  savings : Backref → Int

/-- `canEncodeSymbol` returns true if the byte is none of the three reserved
symbols and hence can be written directly. -/
def canEncodeSymbol (env : LzEnv) (b : Nat) : Bool :=
  (b != env.symbolDict) && (b != env.symbolShort) && (b != env.symbolLong)

/-- `writeByte` panics when asked to emit a reserved symbol; the panic is
modelled as the distinguished error `panicCannotEncode`.  Otherwise the
byte is appended to the output. -/
def writeByte (env : LzEnv) (b : Nat) (out : List OutTok) :
    Except LzErr (List OutTok) :=
  if canEncodeSymbol env b then .ok (out ++ [OutTok.byte b]) else .error .panicCannotEncode

/-- Translation of `findBackRef`: window clamping and minimum-length
defaulting are from the source; the final index lookup is the external
suffix-array oracle. -/
def findBackRef (env : LzEnv) (data : List Nat) (i : Nat) (bt : BackrefTypeM)
    (minLength0 : Int) : Int × Int :=
  let minLength := if minLength0 = -1 then bt.nbBytesBackRef else minLength0
  if (i : Int) + minLength > (data.length : Int) then (-1, -1)
  else
    let windowStart := max 0 ((i : Int) - bt.maxAddress)
    let maxRefLen0 := bt.maxLength
    let maxRefLen :=
      if (i : Int) + maxRefLen0 > (data.length : Int) then (data.length : Int) - (i : Int)
      else maxRefLen0
    if minLength > maxRefLen then (-1, -1)
    else if bt.dictOnly then
      env.lookupDict ((data.drop i).take maxRefLen.toNat) minLength maxRefLen 0 (env.dictLen : Int)
    else
      env.lookupInput ((data.drop i).take maxRefLen.toNat) minLength maxRefLen windowStart (i : Int)

/-- The `fillBackrefs` closure of `Compress`: looks up a dict, a short and a
long backref at position `i` and reports whether any was found. -/
def fillBackrefs (env : LzEnv) (d : List Nat) (i : Nat) (minLen : Int) :
    (Backref × Backref × Backref) × Bool :=
  let rd := findBackRef env d i env.dictType minLen
  let rs := findBackRef env d i env.shortType minLen
  let rl := findBackRef env d i env.longType minLen
  (⟨⟨BrKind.dict, rd.1, rd.2⟩, ⟨BrKind.short, rs.1, rs.2⟩, ⟨BrKind.long, rl.1, rl.2⟩⟩,
   !((rd.2 == -1) && (rs.2 == -1) && (rl.2 == -1)))

/-- The `bestBackref` closure of `Compress`: picks the candidate with the
best savings, preferring dict, then short, falling back to long. -/
def bestBackref (sav : Backref → Int) (t : Backref × Backref × Backref) :
    Backref × Int :=
  if t.1.length ≠ -1 ∧ sav t.1 > sav t.2.1 ∧ sav t.1 > sav t.2.2 then (t.1, sav t.1)
  else if t.2.1.length ≠ -1 ∧ sav t.2.1 > sav t.2.2 then (t.2.1, sav t.2.1)
  else (t.2.2, sav t.2.2)

/-- The two-step look-ahead block of `Compress` (source lines 120-162):
starting from the best backref found at `i`, emit up to two literal bytes
if a backref starting one or two positions later saves more.  Returns the
position at which the finally chosen backref is emitted, that backref, and
the output extended with the emitted literals. -/
def lookAhead (env : LzEnv) (d : List Nat) (i : Nat) (best1 : Backref × Int)
    (out : List OutTok) : Except LzErr (Nat × Backref × List OutTok) :=
  if i + 1 < d.length then
    let fb2 := fillBackrefs env d (i + 1) (best1.1.length + 1)
    if fb2.2 then
      let nb := bestBackref env.savings fb2.1
      if nb.2 > best1.2 then
        match writeByte env (d.getD i 0) out with
        | .error e => .error e
        | .ok out1 =>
          if canEncodeSymbol env (d.getD (i + 1) 0) ∧ i + 1 + 1 < d.length then
            let fb3 := fillBackrefs env d (i + 1 + 1) (nb.1.length + 1)
            if fb3.2 then
              let nb2 := bestBackref env.savings fb3.1
              if nb2.2 > nb.2 then
                match writeByte env (d.getD (i + 1) 0) out1 with
                | .error e => .error e
                | .ok out2 => .ok (i + 1 + 1, nb2.1, out2)
              else .ok (i + 1, nb.1, out1)
            else .ok (i + 1, nb.1, out1)
          else .ok (i + 1, nb.1, out1)
      else .ok (i, best1.1, out)
    else
      if i + 2 < d.length ∧ canEncodeSymbol env (d.getD (i + 1) 0) then
        let fb3 := fillBackrefs env d (i + 2) (best1.1.length + 2)
        if fb3.2 then
          let nb := bestBackref env.savings fb3.1
          if nb.2 > best1.2 then
            match writeByte env (d.getD i 0) out with
            | .error e => .error e
            | .ok out1 =>
              match writeByte env (d.getD (i + 1) 0) out1 with
              | .error e => .error e
              | .ok out2 => .ok (i + 2, nb.1, out2)
          else .ok (i, best1.1, out)
        else .ok (i, best1.1, out)
      else .ok (i, best1.1, out)
  else .ok (i, best1.1, out)

/-- The main loop of `Compress` (source lines 100-166), with an explicit
fuel parameter standing for the Go `for` loop; Go's `i += best.length`
becomes `i + length.toNat` (the length of a found backref is positive for
the real index oracles). -/
def compressLoop (env : LzEnv) (d : List Nat) :
    Nat → Nat → List OutTok → Except LzErr (List OutTok)
  | 0, i, out => if i < d.length then .error .outOfFuel else .ok out
  | fuel + 1, i, out =>
    if i < d.length then
      let di := d.getD i 0
      if canEncodeSymbol env di then
        let fb1 := fillBackrefs env d i (-1)
        if fb1.2 then
          let best1 := bestBackref env.savings fb1.1
          match lookAhead env d i best1 out with
          | .error e => .error e
          | .ok st =>
            compressLoop env d fuel (st.1 + st.2.1.length.toNat)
              (st.2.2 ++ [OutTok.backref st.2.1 st.1])
        else
          match writeByte env di out with
          | .error e => .error e
          | .ok out1 => compressLoop env d fuel (i + 1) out1
      else
        let fb := fillBackrefs env d i 1
        if fb.2 then
          let best := bestBackref env.savings fb.1
          compressLoop env d fuel (i + best.1.length.toNat)
            (out ++ [OutTok.backref best.1 i])
        else .error (.noBackrefAt i)
    else .ok out

/-- `Compress`: the input-size check, then the main loop (the output buffer
reset and the suffix-array construction sit between the two in the source;
both are external state owned by the oracles and are not reached when the
size check fails).  The in-memory bit writer's `TryError`/`Close` error
checks after the loop cannot fire for a byte-buffer writer and are not
modelled. -/
def Compress (env : LzEnv) (d : List Nat) : Except LzErr (List OutTok) :=
  if d.length > env.maxInputSize then .error .inputTooLarge
  else compressLoop env d d.length 0 []

/-- A concrete compressor environment used to witness the claims: no
backref is ever found by the index oracles. -/
def lzEnvW : LzEnv where
  maxInputSize := 2
  symbolDict := 255
  symbolShort := 254
  symbolLong := 253
  dictType := ⟨1, 10, 10, true⟩
  shortType := ⟨1, 10, 10, false⟩
  longType := ⟨1, 10, 10, false⟩
  dictLen := 3
  lookupDict := fun _ _ _ _ _ => (-1, -1)
  lookupInput := fun _ _ _ _ _ => (-1, -1)
  savings := fun _ => 0

end Lzss

namespace Plonk

/-- Name of one of the four Fiat-Shamir challenges, in their fixed
derivation order. -/
inductive ChalName : Type
  | gamma
  | beta
  | alpha
  | zeta
deriving DecidableEq, Repr

/-- One transcript event: data bound to the transcript (the verification
key's fixed data, the public-input vector, or a commitment point) or the
computation of a named challenge. -/
inductive FsEvent (F G VK : Type) : Type
  | absorbVk (v : VK)
  | absorbPublic (xs : List F)
  | absorbDigest (g : G)
  | challenge (c : ChalName)
deriving DecidableEq

/-- One gate of the sparse constraint system: the three wire identifiers
indexing into the global solution vector. -/
structure Gate : Type where
  l : Nat
  r : Nat
  o : Nat
deriving DecidableEq, Repr

/-- The part of the sparse R1CS that the prover reads: the public and
secret variable counts and the ordered gate list. -/
structure SparseR1CS : Type where
  nbPublic : Nat
  nbSecret : Nat
  constraints : List Gate
deriving DecidableEq, Repr

/-- The part of the proving key the prover reads.  `domain0Card` and
`domain1Card` are the two evaluation-domain cardinalities; `cardInv` is
`Domain[0].CardinalityInv`; `frMultiplicativeGen` is
`Domain[0].FrMultiplicativeGen`; `generator` and `cosetShift` come from the
verifying key; the selector, permutation-polynomial and Qk vectors are in
the same bases as in the source; `vkS0`/`vkS1` are the precomputed
commitments to sigma1/sigma2 and `vkData` the verification key's fixed data
bound to the transcript by `bindPublicData`. -/
structure ProvingKey (F G VK : Type) : Type where
  domain0Card : Nat
  domain1Card : Nat
  cardInv : F
  frMultiplicativeGen : F
  generator : F
  cosetShift : F
  ql : List F
  qr : List F
  qm : List F
  qo : List F
  lqk : List F
  cqk : List F
  s1 : List F
  s2 : List F
  s3 : List F
  permutation : List Int
  vkS0 : G
  vkS1 : G
  vkData : VK
deriving DecidableEq

/-- A KZG opening proof: the claimed value and the (opaque) quotient
witness point. -/
structure KzgOpening (F G : Type) : Type where
  claimedValue : F
  quotientW : G
deriving DecidableEq

/-- The PLONK proof object: three wire commitments, the Z commitment, the
three quotient-piece commitments, the batched opening proof and the
separate shifted opening of Z. -/
structure PlonkProof (F G B : Type) : Type where
  lro : G × G × G
  z : G
  h : G × G × G
  batchedProof : B
  zShiftedOpening : KzgOpening F G
deriving DecidableEq

/-- A "capture": the multivariate monomial list (coefficient and exponent
tuple per monomial) plus the additive constant C, as assembled by
`AddMonomial`/`.C.Set` in the source. -/
structure MvCapture (F : Type) : Type where
  monomials : List (F × List Nat)
  c : F
deriving DecidableEq

/-- The environment of one `Prove` run: the circuit inputs and all external
collaborators (constraint solver, KZG scheme, FFT basis changes,
Fiat-Shamir hash, the iop ratio-copy-constraint and quotient routines),
per the spec's §6 contract boundary.  `solve` returns the (possibly
partial) solution vector together with an optional error, as the Go
`spr.Solve` does; `forceSeed` models the `SetRandom` seed used by force
mode.  `tcD0` is ToCanonical over Domain[0] followed by ToRegular, `tlcD1`
is ToLagrangeCoset over Domain[1], `tcD1` is ToCanonical over Domain[1]
followed by ToRegular. -/
structure ProverEnv (F G B VK E : Type) : Type where
  spr : SparseR1CS
  pk : ProvingKey F G VK
  fullWitness : List F
  force : Bool
  forceSeed : F
  solve : List F × Option E
  commit : List F → Except E G
  kzgOpen : List F → F → Except E (KzgOpening F G)
  batchOpen : List (List F) → List G → F → Except E B
  buildRatioCC : List (List F) → List Int → F → F → Except E (List F)
  challenge : List (FsEvent F G VK) → ChalName → Except E F
  mvEval : MvCapture F → List (Nat × List F) → Except E (List F)
  computeQuotient : MvCapture F → List (Nat × List F) → Except E (List F)
  tcD0 : List F → List F
  tlcD1 : List F → List F
  tcD1 : List F → List F
  fftInvD0 : List F → List F
  evalPoly : List F → F → F
  finv : F → F

variable {F G B VK E : Type} [CommRing F] [AddCommMonoid G] [Module F G]

/-- Sequential array write: models a Go loop writing `vals` into `xs` at
consecutive indices starting at `off` (in the source the domain-size
invariant keeps every write in bounds). -/
def setSeq {α : Type} (xs : List α) (off : Nat) (vals : List α) : List α :=
  match vals with
  | [] => xs
  | v :: rest => setSeq (xs.set off v) (off + 1) rest

/-- Translation of `evaluateLROSmallDomain`: three arrays of length
`Domain[0].Cardinality`, written by the placeholder loop for public
inputs, the gate loop, and the padding loop, in that order.  Go's panicking
out-of-range indexing of `solution` is modelled by defaulting access
(`getD`); the theorems about this function carry the in-bounds domain-size
invariant as a hypothesis. -/
def evaluateLROSmallDomain (spr : SparseR1CS) (pk : ProvingKey F G VK)
    (solution : List F) : List F × List F × List F :=
  let s := pk.domain0Card
  let s0 := solution.getD 0 0
  let off := spr.nbPublic + spr.constraints.length
  let pad := List.replicate (s - off) s0
  let l := setSeq (setSeq (setSeq (List.replicate s (0 : F))
      0 ((List.range spr.nbPublic).map fun i => solution.getD i 0))
      spr.nbPublic (spr.constraints.map fun g => solution.getD g.l 0))
      off pad
  let r := setSeq (setSeq (setSeq (List.replicate s (0 : F))
      0 (List.replicate spr.nbPublic s0))
      spr.nbPublic (spr.constraints.map fun g => solution.getD g.r 0))
      off pad
  let o := setSeq (setSeq (setSeq (List.replicate s (0 : F))
      0 (List.replicate spr.nbPublic s0))
      spr.nbPublic (spr.constraints.map fun g => solution.getD g.o 0))
      off pad
  (l, r, o)

/-- Translation of `computeLinearizedPolynomial`: the evaluation of the
external iop polynomials at zeta is the `evalP` oracle and the field
inverse the `finv` oracle; everything else is ring arithmetic straight
from the source. -/
def computeLinearizedPolynomial (evalP : List F → F → F) (finv : F → F)
    (lZeta rZeta oZeta alpha beta gamma zeta zu : F) (blindedZ : List F)
    (pk : ProvingKey F G VK) : List F :=
  let rl := rZeta * lZeta
  let s1v := (evalP pk.s1 zeta * beta + lZeta + gamma) *
    (evalP pk.s2 zeta * beta + rZeta + gamma) * zu * beta
  let uzeta := zeta * pk.cosetShift
  let uuzeta := uzeta * pk.cosetShift
  let s2v := -((beta * zeta + lZeta + gamma) * (beta * uzeta + rZeta + gamma) *
    (beta * uuzeta + oZeta + gamma))
  let lagrangeZeta := (zeta ^ pk.domain0Card - 1) * finv (zeta - 1) *
    alpha * alpha * pk.cardInv
  blindedZ.mapIdx fun i z =>
    let t0 := z * s2v
    let t1 := if i < pk.s3.length then t0 + pk.s3.getD i 0 * s1v else t0
    let t2 := t1 * alpha
    let t3 := if i < pk.qm.length then
        t2 + (pk.qm.getD i 0 * rl + pk.ql.getD i 0 * lZeta) + pk.qr.getD i 0 * rZeta +
          (pk.qo.getD i 0 * oZeta + pk.cqk.getD i 0)
      else t2
    t3 + z * lagrangeZeta

/-- Result of a fork/join commitment helper: the returned value (or error)
together with whether the calling path passed the join point
(`<-chCommit0; <-chCommit1`) before returning. -/
structure ForkResult (G E : Type) : Type where
  res : Except E (G × G × G)
  joined : Bool

/-- Translation of `commitToLRO`: commitments to bcl and bcr are forked,
the calling path commits bco; if the calling-path commitment fails the
function returns that error before the join; otherwise it joins and
checks err0 then err1. -/
def commitToLRO (commit : List F → Except E G) (bcl bcr bco : List F) :
    ForkResult G E :=
  let r0 := commit bcl
  let r1 := commit bcr
  match commit bco with
  | .error e2 => ⟨.error e2, false⟩
  | .ok c2 =>
    match r0, r1 with
    | .error e0, _ => ⟨.error e0, true⟩
    | .ok _, .error e1 => ⟨.error e1, true⟩
    | .ok c0, .ok c1 => ⟨.ok (c0, c1, c2), true⟩

/-- Translation of `commitToQuotient`: identical fork/join structure over
the three quotient chunks. -/
def commitToQuotient (commit : List F → Except E G) (h1 h2 h3 : List F) :
    ForkResult G E :=
  let r0 := commit h1
  let r1 := commit h2
  match commit h3 with
  | .error e2 => ⟨.error e2, false⟩
  | .ok c2 =>
    match r0, r1 with
    | .error e0, _ => ⟨.error e0, true⟩
    | .ok _, .error e1 => ⟨.error e1, true⟩
    | .ok c0, .ok c1 => ⟨.ok (c0, c1, c2), true⟩

/-- The force-mode placeholder fill (source lines 305-313): positions from
`start` on are successively assigned the doubled seed r, 2r, 4r, ...;
earlier positions keep the partial solver output. -/
def fillTail (seed : F) (start : Nat) (sol : List F) : List F :=
  sol.mapIdx fun i x => if i < start then x else 2 ^ (i - start) * seed

/-- The solve step of `Prove` (source lines 300-314): a solver error is
returned unless force mode is set, in which case the internal tail of the
partial solution is overwritten with the placeholder fill. -/
def solvedSolution (env : ProverEnv F G B VK E) : Except E (List F) :=
  match env.solve.2 with
  | none => .ok env.solve.1
  | some e =>
    if env.force then
      .ok (fillTail env.forceSeed (env.spr.nbPublic + env.spr.nbSecret) env.solve.1)
    else .error e

/-- The gate-identity capture `ql l + qr r + qm l r + qo o + qk`
(operands x0..x7 = ql, qr, qm, qo, qk, l, r, o). -/
def constraintsCap : MvCapture F :=
  ⟨[(1, [1, 0, 0, 0, 0, 1, 0, 0]), (1, [0, 1, 0, 0, 0, 0, 1, 0]),
    (1, [0, 0, 1, 0, 0, 1, 1, 0]), (1, [0, 0, 0, 1, 0, 0, 0, 1]),
    (1, [0, 0, 0, 0, 1, 0, 0, 0])], 0⟩

/-- A sub-ordering capture `x0 + coef*x1 + gamma` (coef is beta, beta*nu
or beta*nu^2). -/
def subCap (coef gammaV : F) : MvCapture F :=
  ⟨[(1, [1, 0]), (coef, [0, 1])], gammaV⟩

/-- The ordering capture `x0 x1 x2 x3 - x4 x5 x6 x7`. -/
def orderingCap : MvCapture F :=
  ⟨[(1, [1, 1, 1, 1, 0, 0, 0, 0]), (-1, [0, 0, 0, 0, 1, 1, 1, 1])], 0⟩

/-- The boundary capture `x0 x1 - x1` (i.e. L1 * (Z - 1)). -/
def startsAtOneCap : MvCapture F :=
  ⟨[(1, [1, 1]), (-1, [0, 1])], 0⟩

/-- The bundling capture `x0 + alpha x1 + alpha^2 x2`. -/
def plonkCap (alpha : F) : MvCapture F :=
  ⟨[(1, [1, 0, 0]), (alpha, [0, 1, 0]), (alpha * alpha, [0, 0, 1])], 0⟩

/-- Three-list pointwise combination, used for the in-place H-folding
loop. -/
def zipWith3F {α : Type} (f : α → α → α → α) : List α → List α → List α → List α
  | x :: xs, y :: ys, z :: zs => f x y z :: zipWith3F f xs ys zs
  | _, _, _ => []

/-- Explicit bind for `Except`, used to write `Prove` so that each
fallible step is one combinator application. -/
def exBind {E A C : Type} (x : Except E A) (f : A → Except E C) : Except E C :=
  match x with
  | .error e => .error e
  | .ok a => f a

/-- Modelled from the spec: `deriveRandomness` and `bindPublicData` live in
the repository's prover file outside the provided sources.  Per §4.3 of the
spec, before deriving `gamma` the transcript absorbs the verification key's
fixed data, the public-input vector, and the three wire commitments, in
that order; each later point-absorption binds the marshalled point before
the named challenge is computed.  `Prove` below therefore threads an
explicit event trace: absorptions are appended as events and each
challenge is computed by the `challenge` oracle from the events absorbed
so far.

Translation of `Prove` (source lines 286-674): the sequence of solver,
basis-change, commitment, challenge-derivation, identity-evaluation,
quotient, opening and batch-opening steps, returning the proof and the
final transcript trace.  The slice `[:wliop.Size]` of the iop library is
the small-domain size fixed when the polynomial was wrapped. -/
def Prove (env : ProverEnv F G B VK E) :
    Except E (PlonkProof F G B × List (FsEvent F G VK)) :=
  exBind (solvedSolution env) fun solution =>
  let eLRO := evaluateLROSmallDomain env.spr env.pk solution
  let lCan := env.tcD0 eLRO.1
  let rCan := env.tcD0 eLRO.2.1
  let oCan := env.tcD0 eLRO.2.2
  exBind (commitToLRO env.commit lCan rCan oCan).res fun clro =>
  let tr2 : List (FsEvent F G VK) :=
    [FsEvent.absorbVk env.pk.vkData,
     FsEvent.absorbPublic (env.fullWitness.take env.spr.nbPublic),
     FsEvent.absorbDigest clro.1, FsEvent.absorbDigest clro.2.1, FsEvent.absorbDigest clro.2.2]
  exBind (env.challenge tr2 ChalName.gamma) fun gamma =>
  let tr3 := tr2 ++ [FsEvent.challenge ChalName.gamma]
  exBind (env.challenge tr3 ChalName.beta) fun beta =>
  let tr4 := tr3 ++ [FsEvent.challenge ChalName.beta]
  exBind (env.buildRatioCC [eLRO.1, eLRO.2.1, eLRO.2.2] env.pk.permutation beta gamma)
    fun zCoefs =>
  exBind (env.commit zCoefs) fun cz =>
  let tr5 := tr4 ++ [FsEvent.absorbDigest cz]
  exBind (env.challenge tr5 ChalName.alpha) fun alpha =>
  let tr6 := tr5 ++ [FsEvent.challenge ChalName.alpha]
  let qkCC := env.fftInvD0 (env.fullWitness.take env.spr.nbPublic ++
    env.pk.lqk.drop env.spr.nbPublic)
  let lCoset := env.tlcD1 lCan
  let rCoset := env.tlcD1 rCan
  let oCoset := env.tlcD1 oCan
  exBind (env.mvEval constraintsCap
    [(0, env.tlcD1 env.pk.ql), (0, env.tlcD1 env.pk.qr), (0, env.tlcD1 env.pk.qm),
     (0, env.tlcD1 env.pk.qo), (0, env.tlcD1 qkCC),
     (0, lCoset), (0, rCoset), (0, oCoset)]) fun constraintsV =>
  let ubeta := beta * env.pk.frMultiplicativeGen
  let uubeta := ubeta * env.pk.frMultiplicativeGen
  let widV := env.tlcD1 ((List.replicate env.pk.domain1Card (0 : F)).set 1 1)
  exBind (env.mvEval (subCap beta gamma) [(0, lCoset), (0, widV)]) fun av =>
  exBind (env.mvEval (subCap ubeta gamma) [(0, rCoset), (0, widV)]) fun bv =>
  exBind (env.mvEval (subCap uubeta gamma) [(0, oCoset), (0, widV)]) fun cv =>
  exBind (env.mvEval (subCap beta gamma)
    [(0, lCoset), (0, env.tlcD1 (env.tcD0 env.pk.s1))]) fun uv =>
  exBind (env.mvEval (subCap beta gamma)
    [(0, rCoset), (0, env.tlcD1 (env.tcD0 env.pk.s2))]) fun vv =>
  exBind (env.mvEval (subCap beta gamma)
    [(0, oCoset), (0, env.tlcD1 (env.tcD0 env.pk.s3))]) fun wv =>
  let zCoset := env.tlcD1 (env.tcD0 zCoefs)
  exBind (env.mvEval orderingCap
    [(1, zCoset), (0, uv), (0, vv), (0, wv), (0, zCoset), (0, av), (0, bv), (0, cv)])
    fun orderingV =>
  let wloneV := env.tlcD1 (env.tcD0 ((List.replicate env.pk.domain0Card (0 : F)).set 0 1))
  exBind (env.mvEval startsAtOneCap [(0, zCoset), (0, wloneV)]) fun startsAtOneV =>
  exBind (env.computeQuotient (plonkCap alpha)
    [(0, constraintsV), (0, orderingV), (0, startsAtOneV)]) fun hq =>
  let m := env.pk.domain0Card + 2
  exBind (commitToQuotient env.commit (hq.take m) ((hq.drop m).take m)
    ((hq.drop (2 * m)).take m)).res fun ch =>
  let tr7 := tr6 ++ [FsEvent.absorbDigest ch.1, FsEvent.absorbDigest ch.2.1,
    FsEvent.absorbDigest ch.2.2]
  exBind (env.challenge tr7 ChalName.zeta) fun zeta =>
  let tr8 := tr7 ++ [FsEvent.challenge ChalName.zeta]
  let lCanD1 := env.tcD1 lCoset
  let rCanD1 := env.tcD1 rCoset
  let oCanD1 := env.tcD1 oCoset
  let blzeta := env.evalPoly lCanD1 zeta
  let brzeta := env.evalPoly rCanD1 zeta
  let bozeta := env.evalPoly oCanD1 zeta
  let zCanD1 := env.tcD1 zCoset
  exBind (env.kzgOpen (zCanD1.take env.pk.domain0Card) (zeta * env.pk.generator)) fun zOp =>
  let linPol := computeLinearizedPolynomial env.evalPoly env.finv
    blzeta brzeta bozeta alpha beta gamma zeta zOp.claimedValue
    (zCanD1.take m) env.pk
  let linDigestE := env.commit linPol
  let zetaPowerm := zeta ^ m
  let foldedHDigest := zetaPowerm • (zetaPowerm • ch.2.2 + ch.2.1) + ch.1
  let foldedH := zipWith3F (fun x3 x2 x1 => (x3 * zetaPowerm + x2) * zetaPowerm + x1)
    ((hq.drop (2 * m)).take m) ((hq.drop m).take m) (hq.take m)
  exBind linDigestE fun linDigest =>
  exBind (env.batchOpen
    [foldedH, linPol, lCanD1.take env.pk.domain0Card, rCanD1.take env.pk.domain0Card,
     oCanD1.take env.pk.domain0Card, env.pk.s1, env.pk.s2]
    [foldedHDigest, linDigest, clro.1, clro.2.1, clro.2.2, env.pk.vkS0, env.pk.vkS1]
    zeta) fun batched =>
  .ok ({ lro := clro, z := cz, h := ch, batchedProof := batched,
         zShiftedOpening := zOp }, tr8)

/-- Whether an `Except` value is a success. -/
def isOkE {ε α : Type} : Except ε α → Bool
  | .ok _ => true
  | .error _ => false

/-- The transcript events absorbed before the gamma challenge: the
verification key's fixed data, the public-input vector, and the three wire
commitments, in that order. -/
def trG (env : ProverEnv F G B VK E) (clro : G × G × G) : List (FsEvent F G VK) :=
  [FsEvent.absorbVk env.pk.vkData,
   FsEvent.absorbPublic (env.fullWitness.take env.spr.nbPublic),
   FsEvent.absorbDigest clro.1, FsEvent.absorbDigest clro.2.1, FsEvent.absorbDigest clro.2.2]

/-- The Lagrange-coset form of the extracted wire column L used by the
identity evaluations. -/
def lCosetOf (env : ProverEnv F G B VK E) (solution : List F) : List F :=
  env.tlcD1 (env.tcD0 (evaluateLROSmallDomain env.spr env.pk solution).1)

/-- The Lagrange-coset form of the extracted wire column R. -/
def rCosetOf (env : ProverEnv F G B VK E) (solution : List F) : List F :=
  env.tlcD1 (env.tcD0 (evaluateLROSmallDomain env.spr env.pk solution).2.1)

/-- The Lagrange-coset form of the extracted wire column O. -/
def oCosetOf (env : ProverEnv F G B VK E) (solution : List F) : List F :=
  env.tlcD1 (env.tcD0 (evaluateLROSmallDomain env.spr env.pk solution).2.2)

/-- The coset form of the identity polynomial X used by the ordering
sub-captures. -/
def widOf (env : ProverEnv F G B VK E) : List F :=
  env.tlcD1 ((List.replicate env.pk.domain1Card (0 : F)).set 1 1)

/-- The coset form of the public-input-completed Qk selector. -/
def qkCosetOf (env : ProverEnv F G B VK E) : List F :=
  env.tlcD1 (env.fftInvD0 (env.fullWitness.take env.spr.nbPublic ++
    env.pk.lqk.drop env.spr.nbPublic))

/-- The coset form of the first-Lagrange-basis polynomial. -/
def wloneOf (env : ProverEnv F G B VK E) : List F :=
  env.tlcD1 (env.tcD0 ((List.replicate env.pk.domain0Card (0 : F)).set 0 1))

/-- The canonical-over-Domain[1] form of the permutation polynomial Z at
opening time. -/
def zCanD1Of (env : ProverEnv F G B VK E) (zCoefs : List F) : List F :=
  env.tcD1 (env.tlcD1 (env.tcD0 zCoefs))

/-- The linearization polynomial as assembled by `Prove`: wire evaluations
at zeta obtained from the canonical Domain[1] forms, and the blinded Z
coefficients truncated to smallest-domain size plus two. -/
def linPolOf (env : ProverEnv F G B VK E) (solution zCoefs : List F)
    (alpha beta gamma zeta zu : F) : List F :=
  computeLinearizedPolynomial env.evalPoly env.finv
    (env.evalPoly (env.tcD1 (lCosetOf env solution)) zeta)
    (env.evalPoly (env.tcD1 (rCosetOf env solution)) zeta)
    (env.evalPoly (env.tcD1 (oCosetOf env solution)) zeta)
    alpha beta gamma zeta zu
    ((zCanD1Of env zCoefs).take (env.pk.domain0Card + 2)) env.pk

/-- The folded quotient vector exactly as the in-place folding loop
computes it. -/
def foldedHOf (hq : List F) (zeta : F) (m : Nat) : List F :=
  zipWith3F (fun x3 x2 x1 => (x3 * zeta ^ m + x2) * zeta ^ m + x1)
    ((hq.drop (2 * m)).take m) ((hq.drop m).take m) (hq.take m)

/-- The folded quotient commitment exactly as `Prove` computes it. -/
def foldedHDigestOf (ch : G × G × G) (zeta : F) (m : Nat) : G :=
  zeta ^ m • (zeta ^ m • ch.2.2 + ch.2.1) + ch.1

/-- A concrete prover environment over `ZMod 5` with trivial collaborator
oracles, used to witness the claims about `Prove`. -/
def envW : ProverEnv (ZMod 5) (ZMod 5) Bool Bool Nat where
  spr := ⟨1, 1, [⟨0, 1, 2⟩]⟩
  pk := { domain0Card := 4, domain1Card := 16, cardInv := 4, frMultiplicativeGen := 2,
          generator := 3, cosetShift := 2, ql := [1, 1, 1, 1], qr := [1, 1, 1, 1],
          qm := [0, 0, 0, 0], qo := [4, 4, 4, 4], lqk := [0, 0, 0, 0],
          cqk := [0, 0, 0, 0], s1 := [1, 2, 3, 4], s2 := [2, 3, 4, 1], s3 := [3, 4, 1, 2],
          permutation := [0, 1, 2], vkS0 := 1, vkS1 := 2, vkData := true }
  fullWitness := [1, 2, 3]
  force := false
  forceSeed := 0
  solve := ([1, 2, 3], none)
  commit := fun l => .ok l.sum
  kzgOpen := fun _ x => .ok ⟨x, 0⟩
  batchOpen := fun _ _ _ => .ok true
  buildRatioCC := fun _ _ _ _ => .ok [1, 0, 0, 0]
  challenge := fun _ _ => .ok 2
  mvEval := fun _ _ => .ok [0, 0]
  computeQuotient := fun _ _ => .ok (List.replicate 18 1)
  tcD0 := id
  tlcD1 := id
  tcD1 := id
  fftInvD0 := id
  evalPoly := fun l x => l.sum * x
  finv := fun _ => 1

instance factPrime5 : Fact (Nat.Prime 5) := ⟨by norm_num⟩

/-- The concrete environment in force mode with a failing solver and a
nonzero seed. -/
def envW7 : ProverEnv (ZMod 5) (ZMod 5) Bool Bool Nat :=
  {envW with force := true, forceSeed := 1, solve := ([1, 2, 3], some 9)}

end Plonk

namespace Lzss

/-- Every `writeByte` inside the look-ahead block is guarded by
`canEncodeSymbol`, so the block never returns an error. -/
theorem lookAhead_ok (env : LzEnv) (d : List Nat) (i : Nat)
    (best1 : Backref × Int) (out : List OutTok)
    (h : canEncodeSymbol env (d.getD i 0) = true) :
    ∃ st, lookAhead env d i best1 out = .ok st := by
  unfold lookAhead
  by_cases h1 : i + 1 < d.length
  · simp only [h1, if_true]
    by_cases hfb2 : (fillBackrefs env d (i + 1) (best1.1.length + 1)).2
    · simp only [hfb2, if_true]
      by_cases hgt : (bestBackref env.savings
          (fillBackrefs env d (i + 1) (best1.1.length + 1)).1).2 > best1.2
      · simp only [hgt, if_true, writeByte, h]
        by_cases hce1 : canEncodeSymbol env (d.getD (i + 1) 0) = true ∧ i + 1 + 1 < d.length
        · simp only [hce1, if_true]
          by_cases hfb3 : (fillBackrefs env d (i + 1 + 1)
              ((bestBackref env.savings
                (fillBackrefs env d (i + 1) (best1.1.length + 1)).1).1.length + 1)).2
          · simp only [hfb3, if_true]
            by_cases hgt2 : (bestBackref env.savings (fillBackrefs env d (i + 1 + 1)
                  ((bestBackref env.savings
                    (fillBackrefs env d (i + 1) (best1.1.length + 1)).1).1.length + 1)).1).2 >
                (bestBackref env.savings
                  (fillBackrefs env d (i + 1) (best1.1.length + 1)).1).2
            · simp only [hgt2, if_true, writeByte, hce1.1]
              exact ⟨_, rfl⟩
            · simp only [hgt2, if_false]
              exact ⟨_, rfl⟩
          · simp only [hfb3, if_false]
            exact ⟨_, rfl⟩
        · simp only [hce1, if_false]
          exact ⟨_, rfl⟩
      · simp only [hgt, if_false]
        exact ⟨_, rfl⟩
    · simp only [hfb2, if_false]
      by_cases h2 : i + 2 < d.length ∧ canEncodeSymbol env (d.getD (i + 1) 0) = true
      · simp only [h2, if_true]
        by_cases hfb3 : (fillBackrefs env d (i + 2) (best1.1.length + 2)).2
        · simp only [hfb3, if_true]
          by_cases hgt : (bestBackref env.savings
              (fillBackrefs env d (i + 2) (best1.1.length + 2)).1).2 > best1.2
          · simp only [hgt, if_true, writeByte, h, h2.2]
            exact ⟨_, rfl⟩
          · simp only [hgt, if_false]
            exact ⟨_, rfl⟩
        · simp only [hfb3, if_false]
          exact ⟨_, rfl⟩
      · simp only [h2, if_false]
        exact ⟨_, rfl⟩
  · simp only [h1, if_false]
    exact ⟨_, rfl⟩

/-- Classification of every outcome of the loop: it either succeeds, fails
with `noBackrefAt`, or runs out of fuel; in particular it never reaches the
`writeByte` panic (each call site is guarded by `canEncodeSymbol`) and never
reports `inputTooLarge`. -/
theorem compressLoop_cases (env : LzEnv) (d : List Nat) :
    ∀ fuel i out, (∃ o, compressLoop env d fuel i out = .ok o) ∨
      (∃ j, compressLoop env d fuel i out = .error (.noBackrefAt j)) ∨
      compressLoop env d fuel i out = .error .outOfFuel := by
  intro fuel
  induction fuel with
  | zero =>
    intro i out
    by_cases h : i < d.length
    · right; right; simp [compressLoop, h]
    · left; exact ⟨out, by simp [compressLoop, h]⟩
  | succ n ih =>
    intro i out
    simp only [compressLoop]
    by_cases hi : i < d.length
    · simp only [hi, if_true]
      by_cases hce : canEncodeSymbol env (d.getD i 0)
      · simp only [hce, if_true]
        by_cases hfb : (fillBackrefs env d i (-1)).2
        · simp only [hfb, if_true]
          obtain ⟨st, hst⟩ := lookAhead_ok env d i
            (bestBackref env.savings (fillBackrefs env d i (-1)).1) out hce
          rw [hst]
          exact ih _ _
        · simp only [hfb, if_false, writeByte, hce, if_true]
          exact ih _ _
      · simp only [hce, if_false]
        by_cases hfb : (fillBackrefs env d i 1).2
        · simp only [hfb, if_true]
          exact ih _ _
        · right; left
          exact ⟨i, by simp [hfb]⟩
    · left; exact ⟨out, by simp [hi]⟩

/-- C9: for every input longer than `maxInputSize`, `Compress` rejects it
up front with an error and produces no output (the error return precedes
the output-buffer reset and the index construction in the source); for
inputs within the bound the size check never fails, i.e. the
`inputTooLarge` error cannot be the result. -/
theorem c9_input_size_check (env : LzEnv) (d : List Nat) :
    (env.maxInputSize < d.length → Compress env d = .error .inputTooLarge) ∧
    (d.length ≤ env.maxInputSize → Compress env d ≠ .error .inputTooLarge) := by
  constructor
  · intro h
    simp [Compress, h]
  · intro h
    have hnot : ¬ d.length > env.maxInputSize := by omega
    simp only [Compress, hnot, if_false]
    rcases compressLoop_cases env d d.length 0 [] with ⟨o, ho⟩ | ⟨j, hj⟩ | hf
    · rw [ho]; simp
    · rw [hj]; simp
    · rw [hf]; simp

/-- Witness for C9 at a concrete environment and inputs on both sides of
the size bound. -/
theorem c9_input_size_check_witness :
    (lzEnvW.maxInputSize < (List.length [1, 2, 3]) ∧
      Compress lzEnvW [1, 2, 3] = .error .inputTooLarge) ∧
    ((List.length [1]) ≤ lzEnvW.maxInputSize ∧
      Compress lzEnvW [1] ≠ .error .inputTooLarge) :=
  ⟨⟨by decide, (c9_input_size_check lzEnvW [1, 2, 3]).1 (by decide)⟩,
   ⟨by decide, (c9_input_size_check lzEnvW [1]).2 (by decide)⟩⟩

/-- C10: the `panic` inside `writeByte` is unreachable from `Compress`
(every `writeByte` call site is guarded by `canEncodeSymbol`), and when the
current byte is one of the three reserved symbols and no back-reference is
found at that position, the loop returns the `noBackrefAt` error instead of
emitting the byte. -/
theorem c10_writeByte_panic_unreachable (env : LzEnv) (d : List Nat) :
    Compress env d ≠ .error .panicCannotEncode ∧
    (∀ fuel i out, i < d.length → canEncodeSymbol env (d.getD i 0) = false →
      (fillBackrefs env d i 1).2 = false →
      compressLoop env d (fuel + 1) i out = .error (.noBackrefAt i)) := by
  constructor
  · unfold Compress
    by_cases h : d.length > env.maxInputSize
    · simp [h]
    · simp only [h, if_false]
      rcases compressLoop_cases env d d.length 0 [] with ⟨o, ho⟩ | ⟨j, hj⟩ | hf
      · rw [ho]; simp
      · rw [hj]; simp
      · rw [hf]; simp
  · intro fuel i out hi hce hfb
    rw [List.getD_eq_getElem d 0 hi] at hce
    simp [compressLoop, hi, hce, hfb]

/-- Witness for C10 at a concrete environment: the input byte 255 is the
reserved dictionary symbol, no backref exists, and the compressor reports
the no-backref error rather than panicking. -/
theorem c10_writeByte_panic_unreachable_witness :
    Compress lzEnvW [255] ≠ .error .panicCannotEncode ∧
    compressLoop lzEnvW [255] 1 0 [] = .error (.noBackrefAt 0) :=
  ⟨(c10_writeByte_panic_unreachable lzEnvW [255]).1,
   (c10_writeByte_panic_unreachable lzEnvW [255]).2 0 0 [] (by decide) (by decide) (by decide)⟩

end Lzss

namespace Plonk

variable {F G B VK E : Type} [CommRing F] [AddCommMonoid G] [Module F G]

theorem exBind_ok {E A C : Type} (a : A) (f : A → Except E C) :
    exBind (.ok a) f = f a := rfl

theorem exBind_err {E A C : Type} (e : E) (f : A → Except E C) :
    exBind (.error e) f = .error e := rfl

/-- Pointwise reassociation of the three-way fold: the in-place loop form
equals the canonical recombination form. -/
theorem zipWith3F_fold_eq (zm : F) : ∀ (c b a : List F),
    zipWith3F (fun x3 x2 x1 => (x3 * zm + x2) * zm + x1) c b a =
    zipWith3F (fun x1 x2 x3 => x1 + zm * x2 + zm * zm * x3) a b c := by
  intro c
  induction c with
  | nil => intro b a; cases b <;> cases a <;> simp [zipWith3F]
  | cons x xs ih =>
    intro b a
    cases b with
    | nil => cases a <;> simp [zipWith3F]
    | cons y ys =>
      cases a with
      | nil => simp [zipWith3F]
      | cons z zs =>
        simp only [zipWith3F, ih, List.cons.injEq, and_true]
        ring

/-- The folded quotient vector is the recombination
`h1 + zeta^m h2 + zeta^(2m) h3` of the three chunks. -/
theorem foldedHOf_eq (hq : List F) (zeta : F) (m : Nat) :
    foldedHOf hq zeta m =
    zipWith3F (fun x1 x2 x3 => x1 + zeta ^ m * x2 + zeta ^ (2 * m) * x3)
      (hq.take m) ((hq.drop m).take m) ((hq.drop (2 * m)).take m) := by
  have h2m : zeta ^ (2 * m) = zeta ^ m * zeta ^ m := by rw [two_mul, pow_add]
  rw [foldedHOf, zipWith3F_fold_eq]
  simp only [h2m]

/-- The folded quotient commitment is the recombination
`H1 + zeta^m H2 + zeta^(2m) H3` of the three chunk commitments. -/
theorem foldedHDigestOf_eq (ch : G × G × G) (zeta : F) (m : Nat) :
    foldedHDigestOf ch zeta m =
      ch.1 + zeta ^ m • ch.2.1 + zeta ^ (2 * m) • ch.2.2 := by
  rw [foldedHDigestOf, smul_add, smul_smul, two_mul, pow_add]
  abel

/-- `setSeq` preserves the length of the array. -/
theorem setSeq_length {α : Type} (vals : List α) :
    ∀ (xs : List α) (off : Nat), (setSeq xs off vals).length = xs.length := by
  induction vals with
  | nil => intro xs off; rfl
  | cons v rest ih => intro xs off; rw [setSeq, ih, List.length_set]

/-- Setting one cell leaves other indices unchanged. -/
theorem getD_set_ne {α : Type} (xs : List α) (off i : Nat) (v d0 : α) (h : off ≠ i) :
    (xs.set off v).getD i d0 = xs.getD i d0 := by
  simp [List.getD_eq_getElem?_getD, List.getElem?_set_ne h]

/-- Setting one in-bounds cell stores the value there. -/
theorem getD_set_self {α : Type} (xs : List α) (i : Nat) (v d0 : α)
    (h : i < xs.length) : (xs.set i v).getD i d0 = v := by
  rw [List.getD_eq_getElem?_getD, List.getElem?_set_eq_of_lt v h]
  rfl

/-- A write sequence leaves indices before the window unchanged. -/
theorem setSeq_getD_lt {α : Type} (vals : List α) :
    ∀ (xs : List α) (off i : Nat) (d0 : α), i < off →
      (setSeq xs off vals).getD i d0 = xs.getD i d0 := by
  induction vals with
  | nil => intro xs off i d0 _; rfl
  | cons v rest ih =>
    intro xs off i d0 h
    rw [setSeq, ih _ _ _ _ (by omega), getD_set_ne _ _ _ _ _ (by omega)]

/-- A write sequence leaves indices past the window unchanged. -/
theorem setSeq_getD_ge {α : Type} (vals : List α) :
    ∀ (xs : List α) (off i : Nat) (d0 : α), off + vals.length ≤ i →
      (setSeq xs off vals).getD i d0 = xs.getD i d0 := by
  induction vals with
  | nil => intro xs off i d0 _; rfl
  | cons v rest ih =>
    intro xs off i d0 h
    simp only [List.length_cons] at h
    rw [setSeq, ih _ _ _ _ (by omega), getD_set_ne _ _ _ _ _ (by omega)]

/-- Inside the window a write sequence stores the written values. -/
theorem setSeq_getD_mem {α : Type} (vals : List α) :
    ∀ (xs : List α) (off i : Nat) (d0 : α), off ≤ i → i < off + vals.length →
      i < xs.length → (setSeq xs off vals).getD i d0 = vals.getD (i - off) d0 := by
  induction vals with
  | nil => intro xs off i d0 h1 h2 _; simp at h2; omega
  | cons v rest ih =>
    intro xs off i d0 h1 h2 h3
    simp only [List.length_cons] at h2
    rw [setSeq]
    by_cases he : i = off
    · subst he
      rw [setSeq_getD_lt rest _ _ _ _ (by omega), getD_set_self _ _ _ _ h3]
      simp
    · rw [ih _ _ _ _ (by omega) (by omega) (by rw [List.length_set]; omega)]
      have hio : i - off = (i - (off + 1)) + 1 := by omega
      rw [hio, List.getD_cons_succ]

/-- Index-wise description of the three-write column pattern of
`evaluateLROSmallDomain`: the public window, the gate window, and the
padding window. -/
theorem setSeq3_spec {α : Type} (s p off : Nat) (A B C : List α) (z d0 : α)
    (hA : A.length = p) (hoff : off = p + B.length) (hsg : p + B.length ≤ s)
    (hC : C.length = s - off) :
    (setSeq (setSeq (setSeq (List.replicate s z) 0 A) p B) off C).length = s ∧
    (∀ i, i < p →
      (setSeq (setSeq (setSeq (List.replicate s z) 0 A) p B) off C).getD i d0
        = A.getD i d0) ∧
    (∀ j, j < B.length →
      (setSeq (setSeq (setSeq (List.replicate s z) 0 A) p B) off C).getD
        (p + j) d0 = B.getD j d0) ∧
    (∀ k, off ≤ k → k < s →
      (setSeq (setSeq (setSeq (List.replicate s z) 0 A) p B) off C).getD
        k d0 = C.getD (k - off) d0) := by
  subst hoff
  refine ⟨?_, ?_, ?_, ?_⟩
  · rw [setSeq_length, setSeq_length, setSeq_length, List.length_replicate]
  · intro i hi
    rw [setSeq_getD_lt _ _ _ _ _ (by omega), setSeq_getD_lt _ _ _ _ _ hi,
      setSeq_getD_mem _ _ _ _ _ (Nat.zero_le i) (by omega)
        (by rw [List.length_replicate]; omega)]
    simp
  · intro j hj
    rw [setSeq_getD_lt _ _ _ _ _ (by omega),
      setSeq_getD_mem _ _ _ _ _ (by omega) (by omega)
        (by rw [setSeq_length, List.length_replicate]; omega)]
    congr 1
    omega
  · intro k hk1 hk2
    rw [setSeq_getD_mem _ _ _ _ _ hk1 (by omega)
      (by rw [setSeq_length, setSeq_length, List.length_replicate]; omega)]

/-- The three quotient chunks are contiguous and non-overlapping: glued
together they are the first `3*m` coefficients of H. -/
theorem take_three_chunks {α : Type} (l : List α) (m : Nat) :
    l.take m ++ (l.drop m).take m ++ (l.drop (2 * m)).take m = l.take (3 * m) := by
  have h1 : (3 : Nat) * m = m + (m + m) := by ring
  have h2 : (2 : Nat) * m = m + m := by ring
  rw [h1, h2, List.take_add, List.take_add, List.drop_drop, List.append_assoc]

/-- A success of the solve step means either the solver succeeded or force
mode was on. -/
theorem solvedSolution_ok_branch (env : ProverEnv F G B VK E) (s : List F)
    (h : solvedSolution env = .ok s) : env.solve.2 = none ∨ env.force = true := by
  unfold solvedSolution at h
  cases hs : env.solve.2 with
  | none => exact Or.inl rfl
  | some e =>
    rw [hs] at h
    by_cases hf : env.force
    · exact Or.inr hf
    · simp [hf] at h

/-- Inversion of a successful `Prove` run: every intermediate oracle call
succeeded on exactly the arguments the source passes, and the returned
proof and transcript are assembled from those results. -/
theorem prove_run_spec (env : ProverEnv F G B VK E) (p : PlonkProof F G B)
    (tr : List (FsEvent F G VK)) (h : Prove env = .ok (p, tr)) :
    ∃ (solution : List F) (clro : G × G × G) (gamma beta : F) (zCoefs : List F)
      (cz : G) (alpha : F)
      (constraintsV av bv cv uv vv wv orderingV startsAtOneV hq : List F)
      (ch : G × G × G) (zeta : F) (zOp : KzgOpening F G) (linDigest : G) (batched : B),
      solvedSolution env = .ok solution ∧
      (commitToLRO env.commit
        (env.tcD0 (evaluateLROSmallDomain env.spr env.pk solution).1)
        (env.tcD0 (evaluateLROSmallDomain env.spr env.pk solution).2.1)
        (env.tcD0 (evaluateLROSmallDomain env.spr env.pk solution).2.2)).res = .ok clro ∧
      env.challenge (trG env clro) ChalName.gamma = .ok gamma ∧
      env.challenge (trG env clro ++ [FsEvent.challenge ChalName.gamma])
        ChalName.beta = .ok beta ∧
      env.buildRatioCC [(evaluateLROSmallDomain env.spr env.pk solution).1,
        (evaluateLROSmallDomain env.spr env.pk solution).2.1,
        (evaluateLROSmallDomain env.spr env.pk solution).2.2]
        env.pk.permutation beta gamma = .ok zCoefs ∧
      env.commit zCoefs = .ok cz ∧
      env.challenge (trG env clro ++ [FsEvent.challenge ChalName.gamma] ++
        [FsEvent.challenge ChalName.beta] ++ [FsEvent.absorbDigest cz])
        ChalName.alpha = .ok alpha ∧
      env.mvEval constraintsCap
        [(0, env.tlcD1 env.pk.ql), (0, env.tlcD1 env.pk.qr), (0, env.tlcD1 env.pk.qm),
         (0, env.tlcD1 env.pk.qo), (0, qkCosetOf env),
         (0, lCosetOf env solution), (0, rCosetOf env solution),
         (0, oCosetOf env solution)] = .ok constraintsV ∧
      env.mvEval (subCap beta gamma)
        [(0, lCosetOf env solution), (0, widOf env)] = .ok av ∧
      env.mvEval (subCap (beta * env.pk.frMultiplicativeGen) gamma)
        [(0, rCosetOf env solution), (0, widOf env)] = .ok bv ∧
      env.mvEval (subCap (beta * env.pk.frMultiplicativeGen * env.pk.frMultiplicativeGen)
        gamma) [(0, oCosetOf env solution), (0, widOf env)] = .ok cv ∧
      env.mvEval (subCap beta gamma)
        [(0, lCosetOf env solution), (0, env.tlcD1 (env.tcD0 env.pk.s1))] = .ok uv ∧
      env.mvEval (subCap beta gamma)
        [(0, rCosetOf env solution), (0, env.tlcD1 (env.tcD0 env.pk.s2))] = .ok vv ∧
      env.mvEval (subCap beta gamma)
        [(0, oCosetOf env solution), (0, env.tlcD1 (env.tcD0 env.pk.s3))] = .ok wv ∧
      env.mvEval orderingCap
        [(1, env.tlcD1 (env.tcD0 zCoefs)), (0, uv), (0, vv), (0, wv),
         (0, env.tlcD1 (env.tcD0 zCoefs)), (0, av), (0, bv), (0, cv)] = .ok orderingV ∧
      env.mvEval startsAtOneCap
        [(0, env.tlcD1 (env.tcD0 zCoefs)), (0, wloneOf env)] = .ok startsAtOneV ∧
      env.computeQuotient (plonkCap alpha)
        [(0, constraintsV), (0, orderingV), (0, startsAtOneV)] = .ok hq ∧
      (commitToQuotient env.commit (hq.take (env.pk.domain0Card + 2))
        ((hq.drop (env.pk.domain0Card + 2)).take (env.pk.domain0Card + 2))
        ((hq.drop (2 * (env.pk.domain0Card + 2))).take (env.pk.domain0Card + 2))).res
        = .ok ch ∧
      env.challenge (trG env clro ++ [FsEvent.challenge ChalName.gamma] ++
        [FsEvent.challenge ChalName.beta] ++ [FsEvent.absorbDigest cz] ++
        [FsEvent.challenge ChalName.alpha] ++
        [FsEvent.absorbDigest ch.1, FsEvent.absorbDigest ch.2.1,
         FsEvent.absorbDigest ch.2.2]) ChalName.zeta = .ok zeta ∧
      env.kzgOpen ((zCanD1Of env zCoefs).take env.pk.domain0Card)
        (zeta * env.pk.generator) = .ok zOp ∧
      env.commit (linPolOf env solution zCoefs alpha beta gamma zeta zOp.claimedValue)
        = .ok linDigest ∧
      env.batchOpen
        [foldedHOf hq zeta (env.pk.domain0Card + 2),
         linPolOf env solution zCoefs alpha beta gamma zeta zOp.claimedValue,
         (env.tcD1 (lCosetOf env solution)).take env.pk.domain0Card,
         (env.tcD1 (rCosetOf env solution)).take env.pk.domain0Card,
         (env.tcD1 (oCosetOf env solution)).take env.pk.domain0Card,
         env.pk.s1, env.pk.s2]
        [foldedHDigestOf ch zeta (env.pk.domain0Card + 2), linDigest,
         clro.1, clro.2.1, clro.2.2, env.pk.vkS0, env.pk.vkS1] zeta = .ok batched ∧
      p = ⟨clro, cz, ch, batched, zOp⟩ ∧
      tr = trG env clro ++ [FsEvent.challenge ChalName.gamma] ++
        [FsEvent.challenge ChalName.beta] ++ [FsEvent.absorbDigest cz] ++
        [FsEvent.challenge ChalName.alpha] ++
        [FsEvent.absorbDigest ch.1, FsEvent.absorbDigest ch.2.1,
         FsEvent.absorbDigest ch.2.2] ++ [FsEvent.challenge ChalName.zeta] := by
  unfold Prove at h
  simp only [exBind] at h
  repeat' split at h
  all_goals try exact Except.noConfusion h
  injection h with hpair
  injection hpair with hp ht
  exact ⟨_, _, _, _, _, _, _, _, _, _, _, _, _, _, _, _, _, _, _, _, _, _,
    by and_intros <;> first | assumption | exact hp.symm | exact ht.symm⟩

/-- C1: in every successful run of `Prove` the four Fiat-Shamir challenges
are derived in the fixed order gamma, beta, alpha, zeta; before gamma the
transcript has absorbed the verification key's fixed data, the public-input
vector and the three wire commitments, in that order; beta is derived
immediately after gamma with no new absorbed data; alpha is derived only
after the commitment to Z is absorbed; zeta only after the three
quotient-piece commitments are absorbed.  The whole transcript of a
successful run is this exact event list. -/
theorem c1_challenge_order (env : ProverEnv F G B VK E)
    (hok : isOkE (Prove env) = true) :
    ∃ (p : PlonkProof F G B) (tr : List (FsEvent F G VK)),
      Prove env = .ok (p, tr) ∧
      tr = [FsEvent.absorbVk env.pk.vkData,
            FsEvent.absorbPublic (env.fullWitness.take env.spr.nbPublic),
            FsEvent.absorbDigest p.lro.1, FsEvent.absorbDigest p.lro.2.1,
            FsEvent.absorbDigest p.lro.2.2,
            FsEvent.challenge ChalName.gamma,
            FsEvent.challenge ChalName.beta,
            FsEvent.absorbDigest p.z,
            FsEvent.challenge ChalName.alpha,
            FsEvent.absorbDigest p.h.1, FsEvent.absorbDigest p.h.2.1,
            FsEvent.absorbDigest p.h.2.2,
            FsEvent.challenge ChalName.zeta] := by
  cases hp : Prove env with
  | error e => rw [hp] at hok; exact absurd hok (by simp [isOkE])
  | ok pr =>
    obtain ⟨solution, clro, gamma, beta, zCoefs, cz, alpha, cV, av, bv, cv, uv, vv, wv,
      oV, sV, hq, ch, zeta, zOp, linD, batched,
      hsol, hclro, hgamma, hbeta, hz, hcz, halpha, hcon, hav, hbv, hcv, huv, hvv, hwv,
      hord, hsone, hhq, hch, hzeta, hopen, hlin, hbatch, hpEq, htrEq⟩ :=
      prove_run_spec env pr.1 pr.2 (by rw [hp])
    refine ⟨pr.1, pr.2, rfl, ?_⟩
    rw [htrEq, hpEq]
    simp [trG]

/-- C2: `Prove` splits the quotient H into three contiguous non-overlapping
coefficient chunks of size exactly `Domain[0].Cardinality + 2` each, commits
them into the proof's H slots, and at opening time recombines them, both as
coefficient vectors and as commitments, as `h1 + zeta^m h2 + zeta^(2m) h3`
with `m = Domain[0].Cardinality + 2`; the recombined vector and digest head
the batch opening. -/
theorem c2_quotient_split_fold (env : ProverEnv F G B VK E)
    (hok : isOkE (Prove env) = true)
    (hlen : ∀ cap ops r, env.computeQuotient cap ops = .ok r →
      3 * (env.pk.domain0Card + 2) ≤ r.length) :
    ∃ (p : PlonkProof F G B) (tr : List (FsEvent F G VK)) (alpha : F)
      (constraintsV orderingV startsAtOneV hq : List F) (zeta : F),
      Prove env = .ok (p, tr) ∧
      env.computeQuotient (plonkCap alpha)
        [(0, constraintsV), (0, orderingV), (0, startsAtOneV)] = .ok hq ∧
      (commitToQuotient env.commit (hq.take (env.pk.domain0Card + 2))
        ((hq.drop (env.pk.domain0Card + 2)).take (env.pk.domain0Card + 2))
        ((hq.drop (2 * (env.pk.domain0Card + 2))).take (env.pk.domain0Card + 2))).res
        = .ok p.h ∧
      (hq.take (env.pk.domain0Card + 2)).length = env.pk.domain0Card + 2 ∧
      ((hq.drop (env.pk.domain0Card + 2)).take (env.pk.domain0Card + 2)).length
        = env.pk.domain0Card + 2 ∧
      ((hq.drop (2 * (env.pk.domain0Card + 2))).take (env.pk.domain0Card + 2)).length
        = env.pk.domain0Card + 2 ∧
      hq.take (env.pk.domain0Card + 2) ++
        (hq.drop (env.pk.domain0Card + 2)).take (env.pk.domain0Card + 2) ++
        (hq.drop (2 * (env.pk.domain0Card + 2))).take (env.pk.domain0Card + 2)
        = hq.take (3 * (env.pk.domain0Card + 2)) ∧
      foldedHOf hq zeta (env.pk.domain0Card + 2) =
        zipWith3F (fun x1 x2 x3 => x1 + zeta ^ (env.pk.domain0Card + 2) * x2 +
          zeta ^ (2 * (env.pk.domain0Card + 2)) * x3)
          (hq.take (env.pk.domain0Card + 2))
          ((hq.drop (env.pk.domain0Card + 2)).take (env.pk.domain0Card + 2))
          ((hq.drop (2 * (env.pk.domain0Card + 2))).take (env.pk.domain0Card + 2)) ∧
      foldedHDigestOf p.h zeta (env.pk.domain0Card + 2) =
        p.h.1 + zeta ^ (env.pk.domain0Card + 2) • p.h.2.1 +
          zeta ^ (2 * (env.pk.domain0Card + 2)) • p.h.2.2 ∧
      (∃ restP restD, env.batchOpen
        (foldedHOf hq zeta (env.pk.domain0Card + 2) :: restP)
        (foldedHDigestOf p.h zeta (env.pk.domain0Card + 2) :: restD) zeta
        = .ok p.batchedProof) := by
  cases hp : Prove env with
  | error e => rw [hp] at hok; exact absurd hok (by simp [isOkE])
  | ok pr =>
    obtain ⟨solution, clro, gamma, beta, zCoefs, cz, alpha, cV, av, bv, cv, uv, vv, wv,
      oV, sV, hq, ch, zeta, zOp, linD, batched,
      hsol, hclro, hgamma, hbeta, hz, hcz, halpha, hcon, hav, hbv, hcv, huv, hvv, hwv,
      hord, hsone, hhq, hch, hzeta, hopen, hlin, hbatch, hpEq, htrEq⟩ :=
      prove_run_spec env pr.1 pr.2 (by rw [hp])
    have hL : 3 * (env.pk.domain0Card + 2) ≤ hq.length := hlen _ _ _ hhq
    refine ⟨pr.1, pr.2, alpha, cV, oV, sV, hq, zeta, rfl, hhq, ?_, ?_, ?_, ?_,
      ?_, foldedHOf_eq hq zeta _, ?_, ?_⟩
    · rw [hpEq]; exact hch
    · simp only [List.length_take]; omega
    · simp only [List.length_take, List.length_drop]; omega
    · simp only [List.length_take, List.length_drop]; omega
    · exact take_three_chunks hq (env.pk.domain0Card + 2)
    · exact foldedHDigestOf_eq pr.1.h zeta _
    · rw [hpEq]
      exact ⟨_, _, hbatch⟩

/-- C4: `Prove` opens the permutation polynomial Z at the single
domain-shifted point `zeta * generator`, via exactly one opening stored as
the proof's ZShiftedOpening (whose commitment is the proof's Z slot), and
the claimed value of that opening is the zu argument used when assembling
the linearization polynomial that is committed and batch-opened. -/
theorem c4_z_shifted_opening (env : ProverEnv F G B VK E)
    (hok : isOkE (Prove env) = true) :
    ∃ (p : PlonkProof F G B) (tr : List (FsEvent F G VK)) (solution zCoefs : List F)
      (alpha beta gamma zeta : F) (linDigest : G),
      Prove env = .ok (p, tr) ∧
      env.commit zCoefs = .ok p.z ∧
      env.kzgOpen ((zCanD1Of env zCoefs).take env.pk.domain0Card)
        (zeta * env.pk.generator) = .ok p.zShiftedOpening ∧
      env.commit (linPolOf env solution zCoefs alpha beta gamma zeta
        p.zShiftedOpening.claimedValue) = .ok linDigest ∧
      (∃ fh restP fd restD, env.batchOpen
        (fh :: linPolOf env solution zCoefs alpha beta gamma zeta
          p.zShiftedOpening.claimedValue :: restP)
        (fd :: linDigest :: restD) zeta = .ok p.batchedProof) := by
  cases hp : Prove env with
  | error e => rw [hp] at hok; exact absurd hok (by simp [isOkE])
  | ok pr =>
    obtain ⟨solution, clro, gamma, beta, zCoefs, cz, alpha, cV, av, bv, cv, uv, vv, wv,
      oV, sV, hq, ch, zeta, zOp, linD, batched,
      hsol, hclro, hgamma, hbeta, hz, hcz, halpha, hcon, hav, hbv, hcv, huv, hvv, hwv,
      hord, hsone, hhq, hch, hzeta, hopen, hlin, hbatch, hpEq, htrEq⟩ :=
      prove_run_spec env pr.1 pr.2 (by rw [hp])
    refine ⟨pr.1, pr.2, solution, zCoefs, alpha, beta, gamma, zeta, linD, rfl,
      ?_, ?_, ?_, ?_⟩
    · rw [hpEq]; exact hcz
    · rw [hpEq]; exact hopen
    · rw [hpEq]; exact hlin
    · rw [hpEq]; exact ⟨_, _, _, _, hbatch⟩

/-- C5: the batched opening is taken at the single point zeta over exactly
the seven polynomials foldedH, linearization polynomial, l, r, o, sigma1,
sigma2, each paired against its respective commitment (folded H digest,
linearization digest, the three wire commitments, the verifying key's two
permutation digests), yielding the one BatchedProof of the returned
Proof. -/
theorem c5_batch_opening (env : ProverEnv F G B VK E)
    (hok : isOkE (Prove env) = true) :
    ∃ (p : PlonkProof F G B) (tr : List (FsEvent F G VK))
      (solution zCoefs hq : List F) (alpha beta gamma zeta : F) (linDigest : G),
      Prove env = .ok (p, tr) ∧
      solvedSolution env = .ok solution ∧
      env.buildRatioCC [(evaluateLROSmallDomain env.spr env.pk solution).1,
        (evaluateLROSmallDomain env.spr env.pk solution).2.1,
        (evaluateLROSmallDomain env.spr env.pk solution).2.2]
        env.pk.permutation beta gamma = .ok zCoefs ∧
      env.commit (linPolOf env solution zCoefs alpha beta gamma zeta
        p.zShiftedOpening.claimedValue) = .ok linDigest ∧
      env.batchOpen
        [foldedHOf hq zeta (env.pk.domain0Card + 2),
         linPolOf env solution zCoefs alpha beta gamma zeta
           p.zShiftedOpening.claimedValue,
         (env.tcD1 (lCosetOf env solution)).take env.pk.domain0Card,
         (env.tcD1 (rCosetOf env solution)).take env.pk.domain0Card,
         (env.tcD1 (oCosetOf env solution)).take env.pk.domain0Card,
         env.pk.s1, env.pk.s2]
        [foldedHDigestOf p.h zeta (env.pk.domain0Card + 2), linDigest,
         p.lro.1, p.lro.2.1, p.lro.2.2, env.pk.vkS0, env.pk.vkS1] zeta
        = .ok p.batchedProof := by
  cases hp : Prove env with
  | error e => rw [hp] at hok; exact absurd hok (by simp [isOkE])
  | ok pr =>
    obtain ⟨solution, clro, gamma, beta, zCoefs, cz, alpha, cV, av, bv, cv, uv, vv, wv,
      oV, sV, hq, ch, zeta, zOp, linD, batched,
      hsol, hclro, hgamma, hbeta, hz, hcz, halpha, hcon, hav, hbv, hcv, huv, hvv, hwv,
      hord, hsone, hhq, hch, hzeta, hopen, hlin, hbatch, hpEq, htrEq⟩ :=
      prove_run_spec env pr.1 pr.2 (by rw [hp])
    refine ⟨pr.1, pr.2, solution, zCoefs, hq, alpha, beta, gamma, zeta, linD, rfl,
      hsol, hz, ?_, ?_⟩
    · rw [hpEq]; exact hlin
    · rw [hpEq]; exact hbatch

/-- C3: `evaluateLROSmallDomain` returns three sequences of length equal to
the small domain's cardinality; for each public-input position i, L holds
`solution[i]` while R and O hold `solution[0]`; row `publicCount + j` holds
the solution values addressed by gate j's L/R/O wire identifiers; and every
remaining padding row holds `solution[0]` in all three columns. -/
theorem c3_evaluate_lro_small_domain (spr : SparseR1CS) (pk : ProvingKey F G VK)
    (solution : List F)
    (hs : spr.nbPublic + spr.constraints.length ≤ pk.domain0Card) :
    (evaluateLROSmallDomain spr pk solution).1.length = pk.domain0Card ∧
    (evaluateLROSmallDomain spr pk solution).2.1.length = pk.domain0Card ∧
    (evaluateLROSmallDomain spr pk solution).2.2.length = pk.domain0Card ∧
    (∀ i, i < spr.nbPublic →
      (evaluateLROSmallDomain spr pk solution).1.getD i 0 = solution.getD i 0 ∧
      (evaluateLROSmallDomain spr pk solution).2.1.getD i 0 = solution.getD 0 0 ∧
      (evaluateLROSmallDomain spr pk solution).2.2.getD i 0 = solution.getD 0 0) ∧
    (∀ j, j < spr.constraints.length →
      (evaluateLROSmallDomain spr pk solution).1.getD (spr.nbPublic + j) 0 =
        solution.getD (spr.constraints.getD j ⟨0, 0, 0⟩).l 0 ∧
      (evaluateLROSmallDomain spr pk solution).2.1.getD (spr.nbPublic + j) 0 =
        solution.getD (spr.constraints.getD j ⟨0, 0, 0⟩).r 0 ∧
      (evaluateLROSmallDomain spr pk solution).2.2.getD (spr.nbPublic + j) 0 =
        solution.getD (spr.constraints.getD j ⟨0, 0, 0⟩).o 0) ∧
    (∀ k, spr.nbPublic + spr.constraints.length ≤ k → k < pk.domain0Card →
      (evaluateLROSmallDomain spr pk solution).1.getD k 0 = solution.getD 0 0 ∧
      (evaluateLROSmallDomain spr pk solution).2.1.getD k 0 = solution.getD 0 0 ∧
      (evaluateLROSmallDomain spr pk solution).2.2.getD k 0 = solution.getD 0 0) := by
  obtain ⟨hLlen, hLpub, hLgate, hLpad⟩ :=
    setSeq3_spec pk.domain0Card spr.nbPublic (spr.nbPublic + spr.constraints.length)
      ((List.range spr.nbPublic).map fun i => solution.getD i 0)
      (spr.constraints.map fun g => solution.getD g.l 0)
      (List.replicate (pk.domain0Card - (spr.nbPublic + spr.constraints.length))
        (solution.getD 0 0)) (0 : F) (0 : F)
      (by simp) (by simp) (by simpa using hs) (by simp)
  obtain ⟨hRlen, hRpub, hRgate, hRpad⟩ :=
    setSeq3_spec pk.domain0Card spr.nbPublic (spr.nbPublic + spr.constraints.length)
      (List.replicate spr.nbPublic (solution.getD 0 0))
      (spr.constraints.map fun g => solution.getD g.r 0)
      (List.replicate (pk.domain0Card - (spr.nbPublic + spr.constraints.length))
        (solution.getD 0 0)) (0 : F) (0 : F)
      (by simp) (by simp) (by simpa using hs) (by simp)
  obtain ⟨hOlen, hOpub, hOgate, hOpad⟩ :=
    setSeq3_spec pk.domain0Card spr.nbPublic (spr.nbPublic + spr.constraints.length)
      (List.replicate spr.nbPublic (solution.getD 0 0))
      (spr.constraints.map fun g => solution.getD g.o 0)
      (List.replicate (pk.domain0Card - (spr.nbPublic + spr.constraints.length))
        (solution.getD 0 0)) (0 : F) (0 : F)
      (by simp) (by simp) (by simpa using hs) (by simp)
  refine ⟨hLlen, hRlen, hOlen, ?_, ?_, ?_⟩
  · intro i hi
    refine ⟨(hLpub i hi).trans ?_, (hRpub i hi).trans ?_, (hOpub i hi).trans ?_⟩
    · simp [List.getD_eq_getElem?_getD, List.getElem?_map, List.getElem?_range, hi]
    · simp [List.getD_eq_getElem?_getD, List.getElem?_replicate, hi]
    · simp [List.getD_eq_getElem?_getD, List.getElem?_replicate, hi]
  · intro j hj
    have hj1 : j < (spr.constraints.map fun g => solution.getD g.l 0).length := by
      simpa using hj
    have hj2 : j < (spr.constraints.map fun g => solution.getD g.r 0).length := by
      simpa using hj
    have hj3 : j < (spr.constraints.map fun g => solution.getD g.o 0).length := by
      simpa using hj
    refine ⟨(hLgate j hj1).trans ?_, (hRgate j hj2).trans ?_, (hOgate j hj3).trans ?_⟩
    · simp [List.getD_eq_getElem?_getD, List.getElem?_map, List.getElem?_eq_getElem hj]
    · simp [List.getD_eq_getElem?_getD, List.getElem?_map, List.getElem?_eq_getElem hj]
    · simp [List.getD_eq_getElem?_getD, List.getElem?_map, List.getElem?_eq_getElem hj]
  · intro k hk1 hk2
    refine ⟨(hLpad k hk1 hk2).trans ?_, (hRpad k hk1 hk2).trans ?_,
      (hOpad k hk1 hk2).trans ?_⟩ <;>
      · rw [List.getD_eq_getElem?_getD, List.getElem?_replicate, if_pos (by omega)]
        rfl

/-- Witness for C3: the concrete system with one public input, one gate and
domain size 4. -/
theorem c3_evaluate_lro_small_domain_witness :
    (envW.spr.nbPublic + envW.spr.constraints.length ≤ envW.pk.domain0Card) ∧
    ((evaluateLROSmallDomain envW.spr envW.pk [1, 2, 3]).1.length
      = envW.pk.domain0Card) ∧
    ((evaluateLROSmallDomain envW.spr envW.pk [1, 2, 3]).1.getD 0 0
      = ([1, 2, 3] : List (ZMod 5)).getD 0 0) :=
  ⟨by decide,
   (c3_evaluate_lro_small_domain envW.spr envW.pk [1, 2, 3] (by decide)).1,
   ((c3_evaluate_lro_small_domain envW.spr envW.pk [1, 2, 3]
      (by decide)).2.2.2.1 0 (by decide)).1⟩

/-- Witness for C1: the concrete environment runs to completion and its
transcript is the expected event list. -/
theorem c1_challenge_order_witness :
    ∃ (p : PlonkProof (ZMod 5) (ZMod 5) Bool)
      (tr : List (FsEvent (ZMod 5) (ZMod 5) Bool)),
      Prove envW = .ok (p, tr) ∧
      tr = [FsEvent.absorbVk envW.pk.vkData,
            FsEvent.absorbPublic (envW.fullWitness.take envW.spr.nbPublic),
            FsEvent.absorbDigest p.lro.1, FsEvent.absorbDigest p.lro.2.1,
            FsEvent.absorbDigest p.lro.2.2,
            FsEvent.challenge ChalName.gamma,
            FsEvent.challenge ChalName.beta,
            FsEvent.absorbDigest p.z,
            FsEvent.challenge ChalName.alpha,
            FsEvent.absorbDigest p.h.1, FsEvent.absorbDigest p.h.2.1,
            FsEvent.absorbDigest p.h.2.2,
            FsEvent.challenge ChalName.zeta] :=
  c1_challenge_order envW (by decide)

/-- Witness for C2 at the concrete environment. -/
theorem c2_quotient_split_fold_witness :
    ∃ (p : PlonkProof (ZMod 5) (ZMod 5) Bool)
      (tr : List (FsEvent (ZMod 5) (ZMod 5) Bool)) (alpha : ZMod 5)
      (constraintsV orderingV startsAtOneV hq : List (ZMod 5)) (zeta : ZMod 5),
      Prove envW = .ok (p, tr) ∧
      envW.computeQuotient (plonkCap alpha)
        [(0, constraintsV), (0, orderingV), (0, startsAtOneV)] = .ok hq ∧
      (commitToQuotient envW.commit (hq.take (envW.pk.domain0Card + 2))
        ((hq.drop (envW.pk.domain0Card + 2)).take (envW.pk.domain0Card + 2))
        ((hq.drop (2 * (envW.pk.domain0Card + 2))).take (envW.pk.domain0Card + 2))).res
        = .ok p.h ∧
      (hq.take (envW.pk.domain0Card + 2)).length = envW.pk.domain0Card + 2 ∧
      ((hq.drop (envW.pk.domain0Card + 2)).take (envW.pk.domain0Card + 2)).length
        = envW.pk.domain0Card + 2 ∧
      ((hq.drop (2 * (envW.pk.domain0Card + 2))).take (envW.pk.domain0Card + 2)).length
        = envW.pk.domain0Card + 2 ∧
      hq.take (envW.pk.domain0Card + 2) ++
        (hq.drop (envW.pk.domain0Card + 2)).take (envW.pk.domain0Card + 2) ++
        (hq.drop (2 * (envW.pk.domain0Card + 2))).take (envW.pk.domain0Card + 2)
        = hq.take (3 * (envW.pk.domain0Card + 2)) ∧
      foldedHOf hq zeta (envW.pk.domain0Card + 2) =
        zipWith3F (fun x1 x2 x3 => x1 + zeta ^ (envW.pk.domain0Card + 2) * x2 +
          zeta ^ (2 * (envW.pk.domain0Card + 2)) * x3)
          (hq.take (envW.pk.domain0Card + 2))
          ((hq.drop (envW.pk.domain0Card + 2)).take (envW.pk.domain0Card + 2))
          ((hq.drop (2 * (envW.pk.domain0Card + 2))).take (envW.pk.domain0Card + 2)) ∧
      foldedHDigestOf p.h zeta (envW.pk.domain0Card + 2) =
        p.h.1 + zeta ^ (envW.pk.domain0Card + 2) • p.h.2.1 +
          zeta ^ (2 * (envW.pk.domain0Card + 2)) • p.h.2.2 ∧
      (∃ restP restD, envW.batchOpen
        (foldedHOf hq zeta (envW.pk.domain0Card + 2) :: restP)
        (foldedHDigestOf p.h zeta (envW.pk.domain0Card + 2) :: restD) zeta
        = .ok p.batchedProof) :=
  c2_quotient_split_fold envW (by decide) (fun cap ops r h => by cases h; decide)

/-- Witness for C4 at the concrete environment. -/
theorem c4_z_shifted_opening_witness :
    ∃ (p : PlonkProof (ZMod 5) (ZMod 5) Bool)
      (tr : List (FsEvent (ZMod 5) (ZMod 5) Bool))
      (solution zCoefs : List (ZMod 5))
      (alpha beta gamma zeta : ZMod 5) (linDigest : ZMod 5),
      Prove envW = .ok (p, tr) ∧
      envW.commit zCoefs = .ok p.z ∧
      envW.kzgOpen ((zCanD1Of envW zCoefs).take envW.pk.domain0Card)
        (zeta * envW.pk.generator) = .ok p.zShiftedOpening ∧
      envW.commit (linPolOf envW solution zCoefs alpha beta gamma zeta
        p.zShiftedOpening.claimedValue) = .ok linDigest ∧
      (∃ fh restP fd restD, envW.batchOpen
        (fh :: linPolOf envW solution zCoefs alpha beta gamma zeta
          p.zShiftedOpening.claimedValue :: restP)
        (fd :: linDigest :: restD) zeta = .ok p.batchedProof) :=
  c4_z_shifted_opening envW (by decide)

/-- Witness for C5 at the concrete environment. -/
theorem c5_batch_opening_witness :
    ∃ (p : PlonkProof (ZMod 5) (ZMod 5) Bool)
      (tr : List (FsEvent (ZMod 5) (ZMod 5) Bool))
      (solution zCoefs hq : List (ZMod 5))
      (alpha beta gamma zeta : ZMod 5) (linDigest : ZMod 5),
      Prove envW = .ok (p, tr) ∧
      solvedSolution envW = .ok solution ∧
      envW.buildRatioCC [(evaluateLROSmallDomain envW.spr envW.pk solution).1,
        (evaluateLROSmallDomain envW.spr envW.pk solution).2.1,
        (evaluateLROSmallDomain envW.spr envW.pk solution).2.2]
        envW.pk.permutation beta gamma = .ok zCoefs ∧
      envW.commit (linPolOf envW solution zCoefs alpha beta gamma zeta
        p.zShiftedOpening.claimedValue) = .ok linDigest ∧
      envW.batchOpen
        [foldedHOf hq zeta (envW.pk.domain0Card + 2),
         linPolOf envW solution zCoefs alpha beta gamma zeta
           p.zShiftedOpening.claimedValue,
         (envW.tcD1 (lCosetOf envW solution)).take envW.pk.domain0Card,
         (envW.tcD1 (rCosetOf envW solution)).take envW.pk.domain0Card,
         (envW.tcD1 (oCosetOf envW solution)).take envW.pk.domain0Card,
         envW.pk.s1, envW.pk.s2]
        [foldedHDigestOf p.h zeta (envW.pk.domain0Card + 2), linDigest,
         p.lro.1, p.lro.2.1, p.lro.2.2, envW.pk.vkS0, envW.pk.vkS1] zeta
        = .ok p.batchedProof :=
  c5_batch_opening envW (by decide)

/-- C6: whenever any step of `Prove` fails, the error propagates to the
caller with no retry and no proof is returned.  Formally: starting from any
environment in which `Prove` succeeds, replacing any one collaborator
(solver without force mode, commitment scheme, transcript challenge,
ratio-copy-constraint builder, identity evaluator, quotient computation,
opening, batch opening) by one that fails with `e` makes `Prove` return
exactly `.error e`. -/
theorem c6_error_propagation (env : ProverEnv F G B VK E)
    (hok : isOkE (Prove env) = true) (e : E) :
    Prove {env with solve := (env.solve.1, some e), force := false} = .error e ∧
    Prove {env with commit := fun _ => .error e} = .error e ∧
    Prove {env with challenge := fun _ _ => .error e} = .error e ∧
    Prove {env with buildRatioCC := fun _ _ _ _ => .error e} = .error e ∧
    Prove {env with mvEval := fun _ _ => .error e} = .error e ∧
    Prove {env with computeQuotient := fun _ _ => .error e} = .error e ∧
    Prove {env with kzgOpen := fun _ _ => .error e} = .error e ∧
    Prove ({env with batchOpen := fun _ _ _ => .error e} : ProverEnv F G B VK E)
      = .error e := by
  cases hp : Prove env with
  | error e0 => rw [hp] at hok; exact absurd hok (by simp [isOkE])
  | ok pr =>
    obtain ⟨solution, clro, gamma, beta, zCoefs, cz, alpha, cV, av, bv, cv, uv, vv, wv,
      oV, sV, hq, ch, zeta, zOp, linD, batched,
      hsol, hclro, hgamma, hbeta, hz, hcz, halpha, hcon, hav, hbv, hcv, huv, hvv, hwv,
      hord, hsone, hhq, hch, hzeta, hopen, hlin, hbatch, hpEq, htrEq⟩ :=
      prove_run_spec env pr.1 pr.2 (by rw [hp])
    simp only [trG, List.cons_append, List.nil_append, lCosetOf, rCosetOf, oCosetOf,
      widOf, qkCosetOf, wloneOf, zCanD1Of,
      linPolOf] at hgamma hbeta halpha hcon hav hbv hcv huv hvv hwv hord hsone hzeta hopen hlin
    refine ⟨?_, ?_, ?_, ?_, ?_, ?_, ?_, ?_⟩
    · rfl
    · have hsol2 : solvedSolution {env with commit := fun _ => .error e}
          = .ok solution := hsol
      unfold Prove
      simp only [hsol2, exBind_ok, exBind_err, commitToLRO]
    · have hsol3 : solvedSolution {env with challenge := fun _ _ => .error e}
          = .ok solution := hsol
      unfold Prove
      simp only [hsol3, exBind_ok, hclro, exBind_err]
    · have hsol4 : solvedSolution {env with buildRatioCC := fun _ _ _ _ => .error e}
          = .ok solution := hsol
      unfold Prove
      simp only [hsol4, exBind_ok, hclro, List.cons_append, List.nil_append,
        hgamma, hbeta, exBind_err]
    · have hsol5 : solvedSolution {env with mvEval := fun _ _ => .error e}
          = .ok solution := hsol
      unfold Prove
      simp only [hsol5, exBind_ok, hclro, List.cons_append, List.nil_append,
        hgamma, hbeta, hz, hcz, halpha, exBind_err]
    · have hsol6 : solvedSolution {env with computeQuotient := fun _ _ => .error e}
          = .ok solution := hsol
      unfold Prove
      simp only [hsol6, exBind_ok, hclro, List.cons_append, List.nil_append,
        hgamma, hbeta, hz, hcz, halpha, hcon, hav, hbv, hcv, huv, hvv, hwv,
        hord, hsone, exBind_err]
    · have hsol7 : solvedSolution {env with kzgOpen := fun _ _ => .error e}
          = .ok solution := hsol
      unfold Prove
      simp only [hsol7, exBind_ok, hclro, List.cons_append, List.nil_append,
        hgamma, hbeta, hz, hcz, halpha, hcon, hav, hbv, hcv, huv, hvv, hwv,
        hord, hsone, hhq, hch, hzeta, exBind_err]
    · have hsol8 : solvedSolution
          ({env with batchOpen := fun _ _ _ => .error e} : ProverEnv F G B VK E)
          = .ok solution := hsol
      unfold Prove
      simp only [hsol8, exBind_ok, hclro, List.cons_append, List.nil_append,
        hgamma, hbeta, hz, hcz, halpha, hcon, hav, hbv, hcv, huv, hvv, hwv,
        hord, hsone, hhq, hch, hzeta, hopen, hlin, exBind_err]

/-- Witness for C6 at the concrete environment with error value 7. -/
theorem c6_error_propagation_witness :
    Prove {envW with solve := (envW.solve.1, some 7), force := false} = .error 7 ∧
    Prove {envW with commit := fun _ => .error 7} = .error 7 ∧
    Prove {envW with challenge := fun _ _ => .error 7} = .error 7 ∧
    Prove {envW with buildRatioCC := fun _ _ _ _ => .error 7} = .error 7 ∧
    Prove {envW with mvEval := fun _ _ => .error 7} = .error 7 ∧
    Prove {envW with computeQuotient := fun _ _ => .error 7} = .error 7 ∧
    Prove {envW with kzgOpen := fun _ _ => .error 7} = .error 7 ∧
    Prove ({envW with batchOpen := fun _ _ _ => .error 7} :
      ProverEnv (ZMod 5) (ZMod 5) Bool Bool Nat) = .error 7 :=
  c6_error_propagation envW (by decide) 7

/-- The tail positions filled by force mode hold the successively doubled
seed. -/
theorem fillTail_getD (seed : F) (start : Nat) (sol : List F) (i : Nat)
    (h1 : start ≤ i) (h2 : i < sol.length) :
    (fillTail seed start sol).getD i 0 = 2 ^ (i - start) * seed := by
  unfold fillTail
  have hlen : i < (sol.mapIdx fun i x =>
      if i < start then x else 2 ^ (i - start) * seed).length := by
    rw [List.length_mapIdx]; exact h2
  rw [List.getD_eq_getElem _ _ hlen]
  show (sol.mapIdx fun i x =>
    if i < start then x else 2 ^ (i - start) * seed).get ⟨i, hlen⟩ = _
  rw [List.get_mapIdx sol _ i h2]
  simp [Nat.not_lt.mpr h1]

/-- C7 (amended): if the constraint-system solve fails and the force flag
is not set, `Prove` returns that error; if the force flag is set, the run
proceeds with the solution whose un-solved internal tail (every position
from publicCount + secretCount onward) is filled deterministically with the
repeatedly doubled seed, and those placeholder values are distinct across
positions provided the seed is nonzero and no two powers of two coincide in
the field over the index range. -/
theorem c7_force_fill (env : ProverEnv F G B VK E) [IsDomain F] (e : E)
    (hpow : ∀ a b : Nat, a < env.solve.1.length → b < env.solve.1.length →
      (2 : F) ^ a = 2 ^ b → a = b)
    (hseed : env.forceSeed ≠ 0) :
    (env.force = false → env.solve.2 = some e → Prove env = .error e) ∧
    (env.force = true → env.solve.2 = some e →
      solvedSolution env = .ok (fillTail env.forceSeed
        (env.spr.nbPublic + env.spr.nbSecret) env.solve.1) ∧
      (∀ i, env.spr.nbPublic + env.spr.nbSecret ≤ i → i < env.solve.1.length →
        (fillTail env.forceSeed (env.spr.nbPublic + env.spr.nbSecret)
          env.solve.1).getD i 0
          = 2 ^ (i - (env.spr.nbPublic + env.spr.nbSecret)) * env.forceSeed) ∧
      (∀ i j, env.spr.nbPublic + env.spr.nbSecret ≤ i → i < j →
        j < env.solve.1.length →
        (fillTail env.forceSeed (env.spr.nbPublic + env.spr.nbSecret)
          env.solve.1).getD i 0 ≠
        (fillTail env.forceSeed (env.spr.nbPublic + env.spr.nbSecret)
          env.solve.1).getD j 0)) := by
  constructor
  · intro hf hs
    unfold Prove
    simp only [solvedSolution, hs, hf, Bool.false_eq_true, if_false, exBind_err]
  · intro hf hs
    refine ⟨?_, ?_, ?_⟩
    · simp only [solvedSolution, hs, hf, if_true]
    · intro i h1 h2
      exact fillTail_getD _ _ _ _ h1 h2
    · intro i j h1 hij h2
      rw [fillTail_getD _ _ _ _ h1 (by omega), fillTail_getD _ _ _ _ (by omega) h2]
      intro hEq
      have hpp := mul_right_cancel₀ hseed hEq
      have := hpow _ _ (by omega) (by omega) hpp
      omega

/-- Counterexample for C7 as stated: over the bn254 scalar field, when the
random seed drawn by force mode is zero, every placeholder value in the
tail is zero, so the placeholder values are not distinct across
positions. -/
theorem c7_force_fill_counterexample :
    fillTail (0 : ZMod 21888242871839275222246405745257275088548364400416034343698204186575808495617)
      0 [3, 4] = [0, 0] ∧
    (fillTail (0 : ZMod 21888242871839275222246405745257275088548364400416034343698204186575808495617)
      0 [3, 4]).getD 0 1 =
    (fillTail (0 : ZMod 21888242871839275222246405745257275088548364400416034343698204186575808495617)
      0 [3, 4]).getD 1 1 := by
  constructor
  · decide
  · decide

/-- Witness for the amended C7 at the concrete force-mode environment. -/
theorem c7_force_fill_witness :
    (envW7.force = false → envW7.solve.2 = some 9 → Prove envW7 = .error 9) ∧
    (envW7.force = true → envW7.solve.2 = some 9 →
      solvedSolution envW7 = .ok (fillTail envW7.forceSeed
        (envW7.spr.nbPublic + envW7.spr.nbSecret) envW7.solve.1) ∧
      (∀ i, envW7.spr.nbPublic + envW7.spr.nbSecret ≤ i → i < envW7.solve.1.length →
        (fillTail envW7.forceSeed (envW7.spr.nbPublic + envW7.spr.nbSecret)
          envW7.solve.1).getD i 0
          = 2 ^ (i - (envW7.spr.nbPublic + envW7.spr.nbSecret)) * envW7.forceSeed) ∧
      (∀ i j, envW7.spr.nbPublic + envW7.spr.nbSecret ≤ i → i < j →
        j < envW7.solve.1.length →
        (fillTail envW7.forceSeed (envW7.spr.nbPublic + envW7.spr.nbSecret)
          envW7.solve.1).getD i 0 ≠
        (fillTail envW7.forceSeed (envW7.spr.nbPublic + envW7.spr.nbSecret)
          envW7.solve.1).getD j 0)) :=
  c7_force_fill envW7 9
    (fun a b ha hb h => by
      have ha3 : a < 3 := ha
      have hb3 : b < 3 := hb
      interval_cases a <;> interval_cases b <;> revert h <;> decide)
    (by decide)

/-- Counterexample for C8 as stated: with a commitment oracle that fails on
the main-path input (and also on a forked input), `commitToLRO` returns the
main-path error without passing the join point (`joined = false`), so the
calling path does not wait for the forked commitment computations before
returning, and the forked branch's failure is never observed. -/
theorem c8_fork_join_counterexample :
    (commitToLRO (fun l : List (ZMod 5) =>
      if l.length = 3 then (.error 7 : Except Nat (ZMod 5)) else .ok l.sum)
      [1, 1, 1] [2] [3, 3, 3]).joined = false ∧
    (commitToLRO (fun l : List (ZMod 5) =>
      if l.length = 3 then (.error 7 : Except Nat (ZMod 5)) else .ok l.sum)
      [1, 1, 1] [2] [3, 3, 3]).res = .error 7 ∧
    ((fun l : List (ZMod 5) =>
      if l.length = 3 then (.error 7 : Except Nat (ZMod 5)) else .ok l.sum)
      [1, 1, 1] = .error 7) := by
  refine ⟨rfl, rfl, rfl⟩

/-- C8 (amended): in `commitToLRO` and `commitToQuotient`, when the
main-path commitment succeeds the calling path passes the join point
(waits for both forked commitments) before returning, and a failure on
either forked branch is then observed at the join and returned (the first
fork's error checked before the second's); when the main-path commitment
fails, the function returns that error immediately, without passing the
join point. -/
theorem c8_fork_join (commit : List F → Except E G) (bcl bcr bco q1 q2 q3 : List F) :
    (∀ c2, commit bco = .ok c2 →
      (commitToLRO commit bcl bcr bco).joined = true ∧
      (∀ e0, commit bcl = .error e0 →
        (commitToLRO commit bcl bcr bco).res = .error e0) ∧
      (∀ c0 e1, commit bcl = .ok c0 → commit bcr = .error e1 →
        (commitToLRO commit bcl bcr bco).res = .error e1) ∧
      (∀ c0 c1, commit bcl = .ok c0 → commit bcr = .ok c1 →
        (commitToLRO commit bcl bcr bco).res = .ok (c0, c1, c2))) ∧
    (∀ e2, commit bco = .error e2 →
      (commitToLRO commit bcl bcr bco).res = .error e2 ∧
      (commitToLRO commit bcl bcr bco).joined = false) ∧
    (∀ c2, commit q3 = .ok c2 →
      (commitToQuotient commit q1 q2 q3).joined = true ∧
      (∀ e0, commit q1 = .error e0 →
        (commitToQuotient commit q1 q2 q3).res = .error e0) ∧
      (∀ c0 e1, commit q1 = .ok c0 → commit q2 = .error e1 →
        (commitToQuotient commit q1 q2 q3).res = .error e1) ∧
      (∀ c0 c1, commit q1 = .ok c0 → commit q2 = .ok c1 →
        (commitToQuotient commit q1 q2 q3).res = .ok (c0, c1, c2))) ∧
    (∀ e2, commit q3 = .error e2 →
      (commitToQuotient commit q1 q2 q3).res = .error e2 ∧
      (commitToQuotient commit q1 q2 q3).joined = false) := by
  refine ⟨?_, ?_, ?_, ?_⟩
  · intro c2 h2
    refine ⟨?_, ?_, ?_, ?_⟩
    · rcases h0 : commit bcl with e0 | c0 <;> rcases h1 : commit bcr with e1 | c1 <;>
        simp [commitToLRO, h2, h0, h1]
    · intro e0 h0; simp [commitToLRO, h2, h0]
    · intro c0 e1 h0 h1; simp [commitToLRO, h2, h0, h1]
    · intro c0 c1 h0 h1; simp [commitToLRO, h2, h0, h1]
  · intro e2 h2
    exact ⟨by simp [commitToLRO, h2], by simp [commitToLRO, h2]⟩
  · intro c2 h2
    refine ⟨?_, ?_, ?_, ?_⟩
    · rcases h0 : commit q1 with e0 | c0 <;> rcases h1 : commit q2 with e1 | c1 <;>
        simp [commitToQuotient, h2, h0, h1]
    · intro e0 h0; simp [commitToQuotient, h2, h0]
    · intro c0 e1 h0 h1; simp [commitToQuotient, h2, h0, h1]
    · intro c0 c1 h0 h1; simp [commitToQuotient, h2, h0, h1]
  · intro e2 h2
    exact ⟨by simp [commitToQuotient, h2], by simp [commitToQuotient, h2]⟩

/-- Witness for the amended C8 with a concrete commitment oracle: a
successful main-path commitment joins and surfaces the forked failure,
while a failing main-path commitment returns unjoined. -/
theorem c8_fork_join_witness :
    (commitToLRO (fun l : List (ZMod 5) =>
      if l.length = 3 then (.error 7 : Except Nat (ZMod 5)) else .ok l.sum)
      [1] [2] [4]).joined = true ∧
    (commitToLRO (fun l : List (ZMod 5) =>
      if l.length = 3 then (.error 7 : Except Nat (ZMod 5)) else .ok l.sum)
      [1, 1, 1] [2] [4]).res = .error 7 ∧
    (commitToQuotient (fun l : List (ZMod 5) =>
      if l.length = 3 then (.error 7 : Except Nat (ZMod 5)) else .ok l.sum)
      [1] [2] [4, 4, 4]).joined = false :=
  ⟨((c8_fork_join (fun l : List (ZMod 5) =>
      if l.length = 3 then (.error 7 : Except Nat (ZMod 5)) else .ok l.sum)
      [1] [2] [4] [1] [2] [4]).1 4 rfl).1,
   (((c8_fork_join (fun l : List (ZMod 5) =>
      if l.length = 3 then (.error 7 : Except Nat (ZMod 5)) else .ok l.sum)
      [1, 1, 1] [2] [4] [1] [2] [4]).1 4 rfl).2.1 7 rfl),
   ((c8_fork_join (fun l : List (ZMod 5) =>
      if l.length = 3 then (.error 7 : Except Nat (ZMod 5)) else .ok l.sum)
      [1] [2] [4] [1] [2] [4, 4, 4]).2.2.2 7 rfl).2⟩

end Plonk
